import Mathlib

/-!
# vfork_launcher (boost/process/v2/posix/vfork_launcher.hpp)

A shallow embedding of the four `operator()` overloads of `posix::vfork_launcher`
and of its two protected helpers, followed by theorems about the order of hook
calls, the returned process handle and the error code left with the caller.

Conventions of the embedding

* The initializer pack `inits...` is seen through `detail::on_setup`,
  `detail::on_error`, `detail::on_fork_error`, `detail::on_exec_setup` and
  `detail::on_success` (declared in `default_launcher.hpp`, which is not part
  of the sources at hand).  Each of them is a parameter: a total function on
  the memory a hook can reach through `Launcher &` (the public members `pid`
  and `fd_whitelist`) and on `errno`.  The executable path and `argv` are the
  same in every call of one attempt and are not repeated as arguments.
* `vfork` shares the address space: the child runs first, on the memory of the
  parent, until it calls `execve` or `exit`; the parent then resumes on the
  memory the child left.  File descriptor tables are not shared.
* Every process keeps its own list of events, in the order they happened.
-/

namespace posix

/-- The error categories an `error_code` can carry. -/
inductive error_category
  | system_category
  | generic_category
  | user (id : Nat)
deriving DecidableEq, Repr

/-- An `error_code`: a value and a category. -/
structure error_code where
  value : Int
  category : error_category
deriving DecidableEq, Repr

/-- The default constructed `error_code{}`: value 0 in the system category. -/
def error_code.ok : error_code := ⟨0, error_category.system_category⟩

/-- The test `if (ec)`: the value is not zero. -/
def error_code.failed (e : error_code) : Bool := decide (e.value ≠ 0)

/-- The constant `EXIT_FAILURE` of `<stdlib.h>`. -/
def EXIT_FAILURE : Int := 1

/-- The argument of `execution_context::notify_fork`. -/
inductive fork_event
  | fork_prepare
  | fork_parent
  | fork_child
deriving DecidableEq, Repr

/-- Modelled from the spec: the class template `basic_process` is declared
outside the sources at hand.  A process handle is the owning executor and the
process id; `basic_process(exec)` carries no process id, `basic_process(exec, pid)`
carries `pid`. -/
structure basic_process where
  exec : Nat
  pid : Option Int
deriving DecidableEq, Repr

/-- The memory that the launcher and the hooks read and write during one
attempt: the members `pid` and `fd_whitelist` of the launcher, and `errno`. -/
structure memory where
  pid : Int
  fd_whitelist : List Int
  errno : Int
deriving DecidableEq, Repr

/-- One observable step of a process.  Hooks that take the error code record the
code they were called with; `vfork` and `close_all_fds` record the whitelist
they find. -/
inductive event
  | on_setup
  | on_error (ec : error_code)
  | on_fork_error (ec : error_code)
  | on_exec_setup
  | on_success
  | notify_fork (ev : fork_event)
  | prepare_close_all_fds
  | vfork (fd_whitelist : List Int)
  | close_all_fds (fd_whitelist : List Int)
  | execve
  | exit (status : Int)
deriving DecidableEq, Repr

/-- The state of one process while it runs the launcher: the memory, the
`error_code &` given to the launcher, and the events so far. -/
structure proc where
  mem : memory
  ec : error_code
  trace : List event
deriving DecidableEq, Repr

/-- How a process leaves the launcher. -/
inductive outcome
  | returned (p : basic_process)
  | threw (e : error_code)
  | exited (status : Int)
  | replaced
deriving DecidableEq, Repr

/-- The way a process left the launcher together with its last state. -/
structure result where
  out : outcome
  st : proc
deriving DecidableEq, Repr

/-- The hooks of the initializer pack, as `detail::on_*` runs them. -/
structure initializers where
  on_setup : memory → error_code × memory
  on_error : error_code → memory → memory
  on_fork_error : error_code → memory → memory
  on_exec_setup : memory → error_code × memory
  on_success : error_code → memory → memory

/-- What `::vfork()` does on one attempt: it fails in the caller with -1 and an
`errno`, or it makes a child and gives the caller the positive id of the child. -/
inductive vfork_result
  | failed (errno : Int)
  | forked (child : Nat) (pos : 0 < child)

/-- What `::execve` does on one attempt: it returns (with an `errno`) or it
replaces the image and never returns. -/
inductive execve_result
  | failed (errno : Int)
  | replaced
deriving DecidableEq, Repr

/-- The collaborators outside the launcher: the execution context (which can
reach `errno` but not the launcher), the two system calls and
`detail::close_all`, which reads the whitelist and reports through `ec` and
`errno`. -/
structure system where
  notify_fork : fork_event → Int → Int
  vfork : vfork_result
  close_all : List Int → error_code → Int → error_code × Int
  execve : execve_result

/-- An execution context, known by the executor it hands out. -/
structure execution_context where
  executor : Nat
deriving DecidableEq, Repr

/-- The call `context.get_executor()`. -/
def execution_context.get_executor (context : execution_context) : Nat :=
  context.executor

/-- Appends one event to the events of a process. -/
def emit (e : event) (s : proc) : proc :=
  { s with trace := s.trace ++ [e] }

/-- The statement `ec = detail::on_setup(*this, executable, argv, inits...)`. -/
def call_on_setup (ini : initializers) (s : proc) : proc :=
  { mem := (ini.on_setup s.mem).2, ec := (ini.on_setup s.mem).1,
    trace := s.trace ++ [event.on_setup] }

/-- The statement `detail::on_error(*this, executable, argv, ec, inits...)`. -/
def call_on_error (ini : initializers) (s : proc) : proc :=
  { s with mem := ini.on_error s.ec s.mem, trace := s.trace ++ [event.on_error s.ec] }

/-- The statement `detail::on_fork_error(*this, executable, argv, ec, inits...)`. -/
def call_on_fork_error (ini : initializers) (s : proc) : proc :=
  { s with mem := ini.on_fork_error s.ec s.mem,
           trace := s.trace ++ [event.on_fork_error s.ec] }

/-- The statement `ec = detail::on_exec_setup(*this, executable, argv, inits...)`. -/
def call_on_exec_setup (ini : initializers) (s : proc) : proc :=
  { mem := (ini.on_exec_setup s.mem).2, ec := (ini.on_exec_setup s.mem).1,
    trace := s.trace ++ [event.on_exec_setup] }

/-- The statement `detail::on_success(*this, executable, argv, ec, inits...)`. -/
def call_on_success (ini : initializers) (s : proc) : proc :=
  { s with mem := ini.on_success s.ec s.mem, trace := s.trace ++ [event.on_success] }

/-- The statement `ctx.notify_fork(ev)`. -/
def ctx_notify_fork (sys : system) (ev : fork_event) (s : proc) : proc :=
  { s with mem := { s.mem with errno := sys.notify_fork ev s.mem.errno },
           trace := s.trace ++ [event.notify_fork ev] }

/-- The member `prepare_close_all_fds`: `std::sort` over `fd_whitelist`. -/
def prepare_close_all_fds (s : proc) : proc :=
  { s with mem := { s.mem with
                    fd_whitelist := s.mem.fd_whitelist.insertionSort (fun a b => a ≤ b) },
           trace := s.trace ++ [event.prepare_close_all_fds] }

/-- The member `close_all_fds(ec)`: `detail::close_all(fd_whitelist, ec)`. -/
def close_all_fds (sys : system) (s : proc) : proc :=
  { mem := { s.mem with errno := (sys.close_all s.mem.fd_whitelist s.ec s.mem.errno).2 },
    ec := (sys.close_all s.mem.fd_whitelist s.ec s.mem.errno).1,
    trace := s.trace ++ [event.close_all_fds s.mem.fd_whitelist] }

/-- The branch `else if (pid == 0)` of the launcher: the code a child runs. -/
def child_branch (ini : initializers) (sys : system) (s : proc) : result :=
  let s1 := call_on_exec_setup ini s
  let s2 := if s1.ec.failed then s1 else close_all_fds sys s1
  if s2.ec.failed then
    ⟨outcome.exited EXIT_FAILURE, emit (event.exit EXIT_FAILURE) s2⟩
  else
    match sys.execve with
    | execve_result.replaced => ⟨outcome.replaced, emit event.execve s2⟩
    | execve_result.failed e =>
      let s3 := emit event.execve s2
      let s4 := { s3 with mem := { s3.mem with errno := e } }
      ⟨outcome.exited EXIT_FAILURE, emit (event.exit EXIT_FAILURE) s4⟩

/-- The launcher from the test `if (pid == -1)` to its end, run by a process in
whose memory `pid` holds what `::vfork()` returned to it. -/
def after_vfork (ini : initializers) (sys : system) (exec : Nat) (s : proc) : result :=
  if s.mem.pid = -1 then
    let s1 := ctx_notify_fork sys fork_event.fork_parent s
    let s2 := call_on_fork_error ini s1
    let s3 := call_on_error ini s2
    let s4 := { s3 with ec := ⟨s3.mem.errno, error_category.system_category⟩ }
    ⟨outcome.returned ⟨exec, none⟩, s4⟩
  else if s.mem.pid = 0 then
    child_branch ini sys s
  else
    let s1 := ctx_notify_fork sys fork_event.fork_parent s
    if s1.ec.failed then
      let s2 := call_on_error ini s1
      ⟨outcome.returned ⟨exec, none⟩, s2⟩
    else
      let p : basic_process := ⟨exec, some s1.mem.pid⟩
      let s2 := call_on_success ini s1
      ⟨outcome.returned p, s2⟩

/-- One attempt: what the calling process does, and what the child does when
`vfork` made one. -/
structure run where
  parent : result
  child : Option result

/-- The overload `operator()(Executor exec, error_code & ec, executable, args, inits...)`.
When `vfork` makes a child, the child runs first on the shared memory, with an
event list of its own; the parent resumes on what the child left, with the id
of the child in `pid`. -/
def launch (ini : initializers) (sys : system) (exec : Nat) (s : proc) : run :=
  let s1 := call_on_setup ini s
  if s1.ec.failed then
    let s2 := call_on_error ini s1
    ⟨⟨outcome.returned ⟨exec, none⟩, s2⟩, none⟩
  else
    let s2 := ctx_notify_fork sys fork_event.fork_prepare s1
    let s3 := prepare_close_all_fds s2
    let tr := s3.trace ++ [event.vfork s3.mem.fd_whitelist]
    match sys.vfork with
    | vfork_result.failed e =>
      ⟨after_vfork ini sys exec
         { s3 with mem := { s3.mem with pid := -1, errno := e }, trace := tr }, none⟩
    | vfork_result.forked c _ =>
      let ch := after_vfork ini sys exec
         { s3 with mem := { s3.mem with pid := 0 }, trace := [] }
      ⟨after_vfork ini sys exec
         { mem := { ch.st.mem with pid := (c : Int) }, ec := ch.st.ec, trace := tr },
       some ch⟩

/-- The overload `operator()(Executor exec, executable, args, inits...)`: it runs
`launch` on a local `error_code ec` and throws when that is set.  The
`error_code` of the caller, if there is one, is out of its reach and keeps its
value. -/
def launch_throwing (ini : initializers) (sys : system) (exec : Nat) (s : proc) : result :=
  let r := (launch ini sys exec { s with ec := error_code.ok }).parent
  let st := { r.st with ec := s.ec }
  match r.out with
  | outcome.returned p =>
    if r.st.ec.failed then ⟨outcome.threw r.st.ec, st⟩ else ⟨outcome.returned p, st⟩
  | o => ⟨o, st⟩

/-- The overload `operator()(ExecutionContext & context, error_code & ec, executable, args,
inits...)`: its body is `return (*this)(context.get_executor(), executable, args, inits...)`,
a call without `ec`, which only the throwing executor overload accepts. -/
def launch_context_ec (ini : initializers) (sys : system) (context : execution_context)
    (s : proc) : result :=
  launch_throwing ini sys context.get_executor s

/-- The overload `operator()(ExecutionContext & context, executable, args, inits...)`:
it calls the overload above on a local `error_code ec` and throws when that is set. -/
def launch_context (ini : initializers) (sys : system) (context : execution_context)
    (s : proc) : result :=
  let r := launch_context_ec ini sys context { s with ec := error_code.ok }
  let st := { r.st with ec := s.ec }
  match r.out with
  | outcome.returned p =>
    if r.st.ec.failed then ⟨outcome.threw r.st.ec, st⟩ else ⟨outcome.returned p, st⟩
  | o => ⟨o, st⟩

/-- Whether an event is a call of `on_error`. -/
def event.is_on_error : event → Bool
  | event.on_error _ => true
  | _ => false

/-- Whether an event is a call of `on_success`. -/
def event.is_on_success : event → Bool
  | event.on_success => true
  | _ => false

/-- Whether an event is a call of `on_fork_error`. -/
def event.is_on_fork_error : event → Bool
  | event.on_fork_error _ => true
  | _ => false

/-- Whether an event is a call of `notify_fork`. -/
def event.is_notify_fork : event → Bool
  | event.notify_fork _ => true
  | _ => false

/-- Whether an event is a call of `vfork`. -/
def event.is_vfork : event → Bool
  | event.vfork _ => true
  | _ => false

/-- Whether an event is a call of `close_all_fds`. -/
def event.is_close_all_fds : event → Bool
  | event.close_all_fds _ => true
  | _ => false

/-- The error numbers used in the examples. -/
def EINVAL : Int := 22

/-- The error number "resource temporarily unavailable". -/
def EAGAIN : Int := 11

/-- The error number "bad file descriptor". -/
def EBADF : Int := 9

/-- The error number "no such file or directory". -/
def ENOENT : Int := 2

/-- The error number "permission denied". -/
def EACCES : Int := 13

/-- Initializers without any hook: every hook is skipped. -/
def ini_plain : initializers :=
  { on_setup := fun m => (error_code.ok, m)
    on_error := fun _ m => m
    on_fork_error := fun _ m => m
    on_exec_setup := fun m => (error_code.ok, m)
    on_success := fun _ m => m }

/-- An initializer whose `on_setup` rejects the request with `EINVAL`. -/
def ini_setup_fails : initializers :=
  { ini_plain with on_setup := fun m => (⟨EINVAL, error_category.system_category⟩, m) }

/-- An initializer whose `on_error` cleans up with a `close` that fails, which
leaves `EBADF` in `errno`. -/
def ini_error_closes : initializers :=
  { ini_plain with on_error := fun _ m => { m with errno := EBADF } }

/-- An initializer whose `on_exec_setup` fails with `EACCES`. -/
def ini_exec_setup_fails : initializers :=
  { ini_plain with
    on_exec_setup := fun m => (⟨EACCES, error_category.system_category⟩, m) }

/-- An initializer whose `on_exec_setup` reverses `launcher.fd_whitelist` in place. -/
def ini_exec_setup_reverses : initializers :=
  { ini_plain with
    on_exec_setup := fun m => (error_code.ok, { m with fd_whitelist := m.fd_whitelist.reverse }) }

/-- A system whose context and descriptor sweep do nothing and never fail. -/
def sys_plain (v : vfork_result) (x : execve_result) : system :=
  { notify_fork := fun _ e => e
    vfork := v
    close_all := fun _ ec e => (ec, e)
    execve := x }

/-- A launcher before its first attempt: no pid, three descriptors to keep. -/
def mem0 : memory := ⟨-1, [5, 3, 4], 0⟩

/-- A caller that passes an unset `error_code`. -/
def proc0 : proc := ⟨mem0, error_code.ok, []⟩

/-- A child right after `vfork` returned 0 to it. -/
def proc_child : proc := ⟨⟨0, [3, 4, 5], 0⟩, error_code.ok, []⟩

/-- The id the examples give to the child. -/
def child4242 : vfork_result := vfork_result.forked 4242 (by decide)

/-- A system in which `vfork` makes the child 4242 and `execve` replaces the image. -/
def sys_exec_ok : system := sys_plain child4242 execve_result.replaced

/-- A system in which `vfork` makes the child 4242 and `execve` returns with `ENOENT`. -/
def sys_exec_fails : system := sys_plain child4242 (execve_result.failed ENOENT)

/-- A system in which `vfork` fails with `EAGAIN`. -/
def sys_vfork_fails : system :=
  sys_plain (vfork_result.failed EAGAIN) execve_result.replaced

/-- The whitelist as `std::sort` leaves it, when `on_setup` ran on memory `m`. -/
def sorted_whitelist (ini : initializers) (m : memory) : List Int :=
  (ini.on_setup m).2.fd_whitelist.insertionSort (fun a b => a ≤ b)

/-- The events of the calling process up to and with the call of `vfork`, when
`on_setup` reported no error. -/
def events_to_vfork (ini : initializers) (m : memory) : List event :=
  [event.on_setup, event.notify_fork fork_event.fork_prepare, event.prepare_close_all_fds,
   event.vfork (sorted_whitelist ini m)]

/-- The memory on which the child starts when `on_setup` ran on memory `m` and
reported no error: `pid` is 0, the whitelist is sorted, and `errno` is what
`notify_fork(fork_prepare)` left. -/
def child_memory (ini : initializers) (sys : system) (m : memory) : memory :=
  ⟨0, sorted_whitelist ini m,
    sys.notify_fork fork_event.fork_prepare (ini.on_setup m).2.errno⟩

/-! ## Theorems -/

/-- The path on which `on_setup` reports an error. -/
theorem launch_setup_failed (ini : initializers) (sys : system) (exec : Nat)
    (m : memory) (ec0 : error_code) (h : (ini.on_setup m).1.failed = true) :
    (launch ini sys exec ⟨m, ec0, []⟩).parent.st.trace
        = [event.on_setup, event.on_error (ini.on_setup m).1] ∧
    (launch ini sys exec ⟨m, ec0, []⟩).child = none ∧
    (launch ini sys exec ⟨m, ec0, []⟩).parent.out = outcome.returned ⟨exec, none⟩ ∧
    (launch ini sys exec ⟨m, ec0, []⟩).parent.st.ec = (ini.on_setup m).1 := by
  simp [launch, call_on_setup, call_on_error, h]

/-- C1. When `on_setup` returns a set error code, the executor overload with
`error_code &` performs `on_setup` and then `on_error` (called with that code)
and nothing else: no `notify_fork`, no sort, no `vfork`, no `on_fork_error`, no
`on_success`, and no child exists, so no `on_exec_setup` either.  The handle
is built from the executor alone and the caller's error code is the one
`on_setup` returned. -/
theorem setup_failure_stops_before_vfork (ini : initializers) (sys : system) (exec : Nat)
    (m : memory) (ec0 : error_code) (h : (ini.on_setup m).1.failed = true) :
    (launch ini sys exec ⟨m, ec0, []⟩).parent.st.trace
        = [event.on_setup, event.on_error (ini.on_setup m).1] ∧
    (launch ini sys exec ⟨m, ec0, []⟩).child = none ∧
    (launch ini sys exec ⟨m, ec0, []⟩).parent.out = outcome.returned ⟨exec, none⟩ ∧
    (launch ini sys exec ⟨m, ec0, []⟩).parent.st.ec = (ini.on_setup m).1 := by
  exact launch_setup_failed ini sys exec m ec0 h

/-- C1, at an initializer that rejects the request with `EINVAL`. -/
theorem setup_failure_stops_before_vfork_witness :
    (launch ini_setup_fails sys_exec_ok 7
        ⟨mem0, error_code.ok, []⟩).parent.st.trace
        = [event.on_setup, event.on_error (ini_setup_fails.on_setup mem0).1] ∧
    (launch ini_setup_fails sys_exec_ok 7
        ⟨mem0, error_code.ok, []⟩).child = none ∧
    (launch ini_setup_fails sys_exec_ok 7
        ⟨mem0, error_code.ok, []⟩).parent.out = outcome.returned ⟨7, none⟩ ∧
    (launch ini_setup_fails sys_exec_ok 7
        ⟨mem0, error_code.ok, []⟩).parent.st.ec = (ini_setup_fails.on_setup mem0).1 :=
  setup_failure_stops_before_vfork ini_setup_fails
    sys_exec_ok 7 mem0 error_code.ok (by decide)

/-- The id of a child is neither of the two special values of `vfork`. -/
theorem child_id_cases (c : Nat) (hc : 0 < c) : ¬ ((c : Int) = -1) ∧ ¬ ((c : Int) = 0) := by
  constructor <;> omega

/-- The four ways through the child branch, with the events of each. -/
theorem child_branch_cases (ini : initializers) (sys : system) (s : proc) :
    ((ini.on_exec_setup s.mem).1.failed = true ∧
      child_branch ini sys s = ⟨outcome.exited EXIT_FAILURE,
        emit (event.exit EXIT_FAILURE) (call_on_exec_setup ini s)⟩) ∨
    ((ini.on_exec_setup s.mem).1.failed = false ∧
      (close_all_fds sys (call_on_exec_setup ini s)).ec.failed = true ∧
      child_branch ini sys s = ⟨outcome.exited EXIT_FAILURE,
        emit (event.exit EXIT_FAILURE) (close_all_fds sys (call_on_exec_setup ini s))⟩) ∨
    ((ini.on_exec_setup s.mem).1.failed = false ∧
      (close_all_fds sys (call_on_exec_setup ini s)).ec.failed = false ∧
      sys.execve = execve_result.replaced ∧
      child_branch ini sys s = ⟨outcome.replaced,
        emit event.execve (close_all_fds sys (call_on_exec_setup ini s))⟩) ∨
    (∃ e, (ini.on_exec_setup s.mem).1.failed = false ∧
      (close_all_fds sys (call_on_exec_setup ini s)).ec.failed = false ∧
      sys.execve = execve_result.failed e ∧
      (child_branch ini sys s).out = outcome.exited EXIT_FAILURE ∧
      (child_branch ini sys s).st.ec = (close_all_fds sys (call_on_exec_setup ini s)).ec ∧
      (child_branch ini sys s).st.trace =
        (close_all_fds sys (call_on_exec_setup ini s)).trace
          ++ [event.execve, event.exit EXIT_FAILURE]) := by
  have hec : (call_on_exec_setup ini s).ec = (ini.on_exec_setup s.mem).1 := rfl
  cases h1 : (ini.on_exec_setup s.mem).1.failed
  · cases h2 : (close_all_fds sys (call_on_exec_setup ini s)).ec.failed
    · cases h3 : sys.execve with
      | replaced =>
        right; right; left
        simp [child_branch, hec, h1, h2, h3]
      | failed e =>
        right; right; right
        refine ⟨e, rfl, rfl, rfl, ?_⟩
        simp [child_branch, hec, h1, h2, h3, emit]
    · right; left
      simp [child_branch, hec, h1, h2]
  · left
    simp [child_branch, hec, h1]

/-- C9. In a process to which `vfork` returned 0 the launcher runs
`on_exec_setup` first; `close_all_fds` follows exactly when `on_exec_setup`
reported no error; `execve` is called exactly when neither of the two reported
an error; when `execve` is skipped or returns, the process ends in
`exit(EXIT_FAILURE)`, which is its last event; no `on_error`, `on_success`,
`on_fork_error` or `notify_fork` happens in it, and it never goes back to the
caller, by a return or by an exception. -/
theorem child_never_returns (ini : initializers) (sys : system) (exec : Nat) (s : proc)
    (h : s.mem.pid = 0) :
    ∃ t, (after_vfork ini sys exec s).st.trace = s.trace ++ event.on_exec_setup :: t ∧
      (t.any event.is_close_all_fds = true ↔ (ini.on_exec_setup s.mem).1.failed = false) ∧
      (event.execve ∈ t ↔ ((ini.on_exec_setup s.mem).1.failed = false ∧
          (close_all_fds sys (call_on_exec_setup ini s)).ec.failed = false)) ∧
      ((event.execve ∉ t ∨ ∃ e, sys.execve = execve_result.failed e) →
          ((after_vfork ini sys exec s).out = outcome.exited EXIT_FAILURE ∧
            t.getLast? = some (event.exit EXIT_FAILURE))) ∧
      (∀ ev ∈ event.on_exec_setup :: t, ev.is_on_error = false ∧ ev.is_on_success = false ∧
          ev.is_on_fork_error = false ∧ ev.is_notify_fork = false) ∧
      (∀ p, (after_vfork ini sys exec s).out ≠ outcome.returned p) ∧
      (∀ e, (after_vfork ini sys exec s).out ≠ outcome.threw e) := by
  have hp : ¬ (s.mem.pid = -1) := by omega
  have hav : after_vfork ini sys exec s = child_branch ini sys s := by
    simp [after_vfork, hp, h]
  rw [hav]
  have hc : (close_all_fds sys (call_on_exec_setup ini s)).trace
      = s.trace ++ [event.on_exec_setup,
          event.close_all_fds (call_on_exec_setup ini s).mem.fd_whitelist] := by
    simp [close_all_fds, call_on_exec_setup]
  rcases child_branch_cases ini sys s with ⟨h1, hb⟩ | ⟨h1, h2, hb⟩ | ⟨h1, h2, h3, hb⟩ |
    ⟨e, h1, h2, h3, ho, _, ht⟩
  · refine ⟨[event.exit EXIT_FAILURE], ?_, ?_, ?_, ?_, ?_, ?_, ?_⟩ <;>
      simp [hb, h1, emit, call_on_exec_setup, event.is_close_all_fds, event.is_on_error,
        event.is_on_success, event.is_on_fork_error, event.is_notify_fork]
  · refine ⟨[event.close_all_fds (call_on_exec_setup ini s).mem.fd_whitelist,
        event.exit EXIT_FAILURE], ?_, ?_, ?_, ?_, ?_, ?_, ?_⟩ <;>
      simp [hb, hc, h1, h2, emit, event.is_close_all_fds,
        event.is_on_error, event.is_on_success, event.is_on_fork_error, event.is_notify_fork]
  · refine ⟨[event.close_all_fds (call_on_exec_setup ini s).mem.fd_whitelist,
        event.execve], ?_, ?_, ?_, ?_, ?_, ?_, ?_⟩ <;>
      simp [hb, hc, h1, h2, h3, emit, event.is_close_all_fds,
        event.is_on_error, event.is_on_success, event.is_on_fork_error, event.is_notify_fork]
  · refine ⟨[event.close_all_fds (call_on_exec_setup ini s).mem.fd_whitelist,
        event.execve, event.exit EXIT_FAILURE], ?_, ?_, ?_, ?_, ?_, ?_, ?_⟩ <;>
      simp [ho, ht, hc, h1, h2, h3,
        event.is_close_all_fds, event.is_on_error, event.is_on_success,
        event.is_on_fork_error, event.is_notify_fork]

/-- The path on which `vfork` fails: the events, the handle, and the error code,
which is read from `errno` after the three calls that follow `vfork`. -/
theorem launch_vfork_failed (ini : initializers) (sys : system) (exec : Nat)
    (m : memory) (ec0 : error_code) (e : Int)
    (h : (ini.on_setup m).1.failed = false) (hv : sys.vfork = vfork_result.failed e) :
    (launch ini sys exec ⟨m, ec0, []⟩).child = none ∧
    (launch ini sys exec ⟨m, ec0, []⟩).parent.out = outcome.returned ⟨exec, none⟩ ∧
    (launch ini sys exec ⟨m, ec0, []⟩).parent.st.trace = events_to_vfork ini m ++
      [event.notify_fork fork_event.fork_parent, event.on_fork_error (ini.on_setup m).1,
       event.on_error (ini.on_setup m).1] ∧
    (launch ini sys exec ⟨m, ec0, []⟩).parent.st.ec =
      ⟨(launch ini sys exec ⟨m, ec0, []⟩).parent.st.mem.errno,
        error_category.system_category⟩ := by
  simp [launch, call_on_setup, h, hv, after_vfork, ctx_notify_fork, prepare_close_all_fds,
    call_on_fork_error, call_on_error, events_to_vfork, sorted_whitelist]

/-- The path on which `vfork` makes a child: the child runs the child branch on
the memory the parent has at the call; the parent resumes with the error code
the child left and branches on it. -/
theorem launch_forked (ini : initializers) (sys : system) (exec : Nat)
    (m : memory) (ec0 : error_code) (c : Nat) (hc : 0 < c)
    (h : (ini.on_setup m).1.failed = false) (hv : sys.vfork = vfork_result.forked c hc) :
    ∃ ch, (launch ini sys exec ⟨m, ec0, []⟩).child = some ch ∧
      ch = child_branch ini sys
        ⟨⟨0, sorted_whitelist ini m,
            sys.notify_fork fork_event.fork_prepare (ini.on_setup m).2.errno⟩,
          (ini.on_setup m).1, []⟩ ∧
      (launch ini sys exec ⟨m, ec0, []⟩).parent.st.ec = ch.st.ec ∧
      ((ch.st.ec.failed = true ∧
        (launch ini sys exec ⟨m, ec0, []⟩).parent.out = outcome.returned ⟨exec, none⟩ ∧
        (launch ini sys exec ⟨m, ec0, []⟩).parent.st.trace = events_to_vfork ini m ++
          [event.notify_fork fork_event.fork_parent, event.on_error ch.st.ec]) ∨
       (ch.st.ec.failed = false ∧
        (launch ini sys exec ⟨m, ec0, []⟩).parent.out
          = outcome.returned ⟨exec, some (c : Int)⟩ ∧
        (launch ini sys exec ⟨m, ec0, []⟩).parent.st.trace = events_to_vfork ini m ++
          [event.notify_fork fork_event.fork_parent, event.on_success])) := by
  obtain ⟨hc1, hc0⟩ := child_id_cases c hc
  unfold events_to_vfork sorted_whitelist
  refine ⟨_, ?_, rfl, ?_, ?_⟩
  · simp [launch, call_on_setup, h, hv, after_vfork, ctx_notify_fork, prepare_close_all_fds]
  · cases hf : (child_branch ini sys
        ⟨⟨0, (ini.on_setup m).2.fd_whitelist.insertionSort (fun a b => a ≤ b),
            sys.notify_fork fork_event.fork_prepare (ini.on_setup m).2.errno⟩,
          (ini.on_setup m).1, []⟩).st.ec.failed <;>
      simp [launch, call_on_setup, h, hv, after_vfork, ctx_notify_fork,
        prepare_close_all_fds, hc1, hc0, hf, call_on_error, call_on_success]
  · cases hf : (child_branch ini sys
        ⟨⟨0, (ini.on_setup m).2.fd_whitelist.insertionSort (fun a b => a ≤ b),
            sys.notify_fork fork_event.fork_prepare (ini.on_setup m).2.errno⟩,
          (ini.on_setup m).1, []⟩).st.ec.failed <;>
      simp [launch, call_on_setup, h, hv, after_vfork, ctx_notify_fork,
        prepare_close_all_fds, hc1, hc0, hf, call_on_error, call_on_success]

/-- C7. When `on_setup` reports no error, `vfork` gives the parent the id `c` of
a child and the error code is unset when the parent resumes, the parent performs,
after `on_setup`: `notify_fork(fork_prepare)`, the sort, `vfork`,
`notify_fork(fork_parent)`, `on_success`, and nothing else.  So `on_success` runs
once, `on_error` and `on_fork_error` never; the caller's error code is unset
and the handle holds `c`. -/
theorem success_path (ini : initializers) (sys : system) (exec : Nat)
    (m : memory) (ec0 : error_code) (c : Nat) (hc : 0 < c) (ch : result)
    (h : (ini.on_setup m).1.failed = false) (hv : sys.vfork = vfork_result.forked c hc)
    (hch : (launch ini sys exec ⟨m, ec0, []⟩).child = some ch)
    (hok : ch.st.ec.failed = false) :
    (launch ini sys exec ⟨m, ec0, []⟩).parent.st.trace =
      [event.on_setup, event.notify_fork fork_event.fork_prepare,
       event.prepare_close_all_fds, event.vfork (sorted_whitelist ini m),
       event.notify_fork fork_event.fork_parent, event.on_success] ∧
    (launch ini sys exec ⟨m, ec0, []⟩).parent.st.trace.countP event.is_on_success = 1 ∧
    (launch ini sys exec ⟨m, ec0, []⟩).parent.st.trace.countP event.is_on_error = 0 ∧
    (launch ini sys exec ⟨m, ec0, []⟩).parent.st.trace.countP event.is_on_fork_error = 0 ∧
    (launch ini sys exec ⟨m, ec0, []⟩).parent.st.ec.failed = false ∧
    (launch ini sys exec ⟨m, ec0, []⟩).parent.out
      = outcome.returned ⟨exec, some (c : Int)⟩ := by
  obtain ⟨ch1, h1, _, hec, hcase⟩ := launch_forked ini sys exec m ec0 c hc h hv
  have he : ch1 = ch := Option.some.inj (h1.symm.trans hch)
  subst he
  rcases hcase with ⟨hf, _, _⟩ | ⟨_, ho, ht⟩
  · rw [hok] at hf
    exact absurd hf (by decide)
  · have ht2 : (launch ini sys exec ⟨m, ec0, []⟩).parent.st.trace =
        [event.on_setup, event.notify_fork fork_event.fork_prepare,
         event.prepare_close_all_fds, event.vfork (sorted_whitelist ini m),
         event.notify_fork fork_event.fork_parent, event.on_success] := by
      rw [ht]; rfl
    refine ⟨ht2, ?_, ?_, ?_, ?_, ho⟩
    · rw [ht2]; rfl
    · rw [ht2]; rfl
    · rw [ht2]; rfl
    · rw [hec]; exact hok

/-- C3, as the code has it.  When `vfork` gave the parent the id of a child and
the error code is set when the parent resumes, the parent performs
`notify_fork(fork_parent)` and then `on_error` with that code, `on_success` does
not run, the caller's error code is that code, and the handle is built from
the executor alone: it carries no process id. -/
theorem child_error_gives_handle_without_pid (ini : initializers) (sys : system) (exec : Nat)
    (m : memory) (ec0 : error_code) (c : Nat) (hc : 0 < c) (ch : result)
    (h : (ini.on_setup m).1.failed = false) (hv : sys.vfork = vfork_result.forked c hc)
    (hch : (launch ini sys exec ⟨m, ec0, []⟩).child = some ch)
    (herr : ch.st.ec.failed = true) :
    (launch ini sys exec ⟨m, ec0, []⟩).parent.st.trace =
      [event.on_setup, event.notify_fork fork_event.fork_prepare,
       event.prepare_close_all_fds, event.vfork (sorted_whitelist ini m),
       event.notify_fork fork_event.fork_parent, event.on_error ch.st.ec] ∧
    (launch ini sys exec ⟨m, ec0, []⟩).parent.st.trace.countP event.is_on_success = 0 ∧
    (launch ini sys exec ⟨m, ec0, []⟩).parent.st.ec = ch.st.ec ∧
    (launch ini sys exec ⟨m, ec0, []⟩).parent.out = outcome.returned ⟨exec, none⟩ := by
  obtain ⟨ch1, h1, _, hec, hcase⟩ := launch_forked ini sys exec m ec0 c hc h hv
  have he : ch1 = ch := Option.some.inj (h1.symm.trans hch)
  subst he
  rcases hcase with ⟨_, ho, ht⟩ | ⟨hf, _, _⟩
  · have ht2 : (launch ini sys exec ⟨m, ec0, []⟩).parent.st.trace =
        [event.on_setup, event.notify_fork fork_event.fork_prepare,
         event.prepare_close_all_fds, event.vfork (sorted_whitelist ini m),
         event.notify_fork fork_event.fork_parent, event.on_error ch1.st.ec] := by
      rw [ht]; rfl
    refine ⟨ht2, ?_, hec, ho⟩
    rw [ht2]; rfl
  · rw [herr] at hf
    exact absurd hf (by decide)

/-- The error code a child leaves is unset exactly when neither `on_exec_setup`
nor the sweep that follows it reported an error. -/
theorem child_code_unset_iff (ini : initializers) (sys : system) (s : proc) :
    (child_branch ini sys s).st.ec.failed = false ↔
      ((ini.on_exec_setup s.mem).1.failed = false ∧
        (sys.close_all (ini.on_exec_setup s.mem).2.fd_whitelist (ini.on_exec_setup s.mem).1
          (ini.on_exec_setup s.mem).2.errno).1.failed = false) := by
  have hsw : (close_all_fds sys (call_on_exec_setup ini s)).ec =
      (sys.close_all (ini.on_exec_setup s.mem).2.fd_whitelist (ini.on_exec_setup s.mem).1
        (ini.on_exec_setup s.mem).2.errno).1 := rfl
  have hse : (call_on_exec_setup ini s).ec = (ini.on_exec_setup s.mem).1 := rfl
  rw [← hsw]
  rcases child_branch_cases ini sys s with ⟨h1, hb⟩ | ⟨h1, h2, hb⟩ | ⟨h1, h2, _, hb⟩ |
    ⟨e, h1, h2, _, _, hec, _⟩
  · have hc : (child_branch ini sys s).st.ec = (ini.on_exec_setup s.mem).1 := by
      rw [hb]; exact hse
    rw [hc, h1]
    simp
  · have hc : (child_branch ini sys s).st.ec
        = (close_all_fds sys (call_on_exec_setup ini s)).ec := by
      rw [hb]; rfl
    rw [hc, h2]
    simp
  · have hc : (child_branch ini sys s).st.ec
        = (close_all_fds sys (call_on_exec_setup ini s)).ec := by
      rw [hb]; rfl
    rw [hc, h2, h1]
    simp
  · rw [hec, h2, h1]
    simp

/-- C6. On every attempt the calling process returns from the executor overload
with `error_code &`, and on the way it has called `on_error` and `on_success`
once in total.  The one call is `on_success` exactly when `on_setup` reported
no error, `vfork` made a child (it returned a positive id to the parent) and
no error was recorded in the child, that is, neither `on_exec_setup` nor the
sweep reported one; in every other case the one call is `on_error`.  A child
exists exactly when `on_setup` reported no error and `vfork` made one, and the
error code the parent finds when it resumes is the one that child left. -/
theorem exactly_one_of_on_error_on_success (ini : initializers) (sys : system) (exec : Nat)
    (m : memory) (ec0 : error_code) :
    (∃ p, (launch ini sys exec ⟨m, ec0, []⟩).parent.out = outcome.returned p) ∧
    (launch ini sys exec ⟨m, ec0, []⟩).parent.st.trace.countP event.is_on_error +
      (launch ini sys exec ⟨m, ec0, []⟩).parent.st.trace.countP event.is_on_success = 1 ∧
    ((launch ini sys exec ⟨m, ec0, []⟩).parent.st.trace.countP event.is_on_success = 1 ↔
      ((ini.on_setup m).1.failed = false ∧
        (∃ c hc, sys.vfork = vfork_result.forked c hc) ∧
        (ini.on_exec_setup (child_memory ini sys m)).1.failed = false ∧
        (sys.close_all (ini.on_exec_setup (child_memory ini sys m)).2.fd_whitelist
          (ini.on_exec_setup (child_memory ini sys m)).1
          (ini.on_exec_setup (child_memory ini sys m)).2.errno).1.failed = false)) ∧
    ((launch ini sys exec ⟨m, ec0, []⟩).parent.st.trace.countP event.is_on_error = 1 ↔
      ¬ ((ini.on_setup m).1.failed = false ∧
        (∃ c hc, sys.vfork = vfork_result.forked c hc) ∧
        (ini.on_exec_setup (child_memory ini sys m)).1.failed = false ∧
        (sys.close_all (ini.on_exec_setup (child_memory ini sys m)).2.fd_whitelist
          (ini.on_exec_setup (child_memory ini sys m)).1
          (ini.on_exec_setup (child_memory ini sys m)).2.errno).1.failed = false)) ∧
    ((∃ ch, (launch ini sys exec ⟨m, ec0, []⟩).child = some ch) ↔
      ((ini.on_setup m).1.failed = false ∧
        ∃ c hc, sys.vfork = vfork_result.forked c hc)) ∧
    ((launch ini sys exec ⟨m, ec0, []⟩).parent.st.trace.countP event.is_on_success = 1 ↔
      ∃ ch, (launch ini sys exec ⟨m, ec0, []⟩).child = some ch ∧
        ch.st.ec.failed = false) := by
  cases h : (ini.on_setup m).1.failed
  · cases hv : sys.vfork with
    | failed e =>
      obtain ⟨hch, ho, ht, _⟩ := launch_vfork_failed ini sys exec m ec0 e h hv
      refine ⟨⟨_, ho⟩, ?_, ?_, ?_, ?_, ?_⟩
      · rw [ht]; rfl
      · rw [ht]
        simp [events_to_vfork, event.is_on_success]
      · rw [ht]
        simp [events_to_vfork, event.is_on_error]
      · rw [hch]
        simp
      · rw [ht, hch]
        simp [events_to_vfork, event.is_on_success]
    | forked c hc =>
      obtain ⟨ch, hch, hdef, _, hcase⟩ := launch_forked ini sys exec m ec0 c hc h hv
      have hiff := child_code_unset_iff ini sys
        ⟨child_memory ini sys m, (ini.on_setup m).1, []⟩
      have hdef2 : ch = child_branch ini sys
          ⟨child_memory ini sys m, (ini.on_setup m).1, []⟩ := hdef
      rw [← hdef2] at hiff
      have hex : ∃ c1 hc1, vfork_result.forked c hc = vfork_result.forked c1 hc1 :=
        ⟨c, hc, rfl⟩
      rcases hcase with ⟨hf, ho, ht⟩ | ⟨hf, ho, ht⟩
      · have hno : ¬ ((ini.on_exec_setup (child_memory ini sys m)).1.failed = false ∧
            (sys.close_all (ini.on_exec_setup (child_memory ini sys m)).2.fd_whitelist
              (ini.on_exec_setup (child_memory ini sys m)).1
              (ini.on_exec_setup (child_memory ini sys m)).2.errno).1.failed = false) := by
          intro hboth
          have := hiff.mpr hboth
          rw [hf] at this
          exact absurd this (by decide)
        refine ⟨⟨_, ho⟩, ?_, ?_, ?_, ?_, ?_⟩
        · rw [ht]; rfl
        · rw [ht]
          constructor
          · intro hcount
            simp [events_to_vfork, event.is_on_success] at hcount
          · intro hall
            exact absurd ⟨hall.2.2.1, hall.2.2.2⟩ hno
        · rw [ht]
          constructor
          · intro _ hall
            exact absurd ⟨hall.2.2.1, hall.2.2.2⟩ hno
          · intro _
            simp [events_to_vfork, event.is_on_error]
        · exact ⟨fun _ => ⟨rfl, hex⟩, fun _ => ⟨ch, hch⟩⟩
        · rw [ht, hch]
          simp [events_to_vfork, event.is_on_success, hf]
      · have hyes := hiff.mp hf
        refine ⟨⟨_, ho⟩, ?_, ?_, ?_, ?_, ?_⟩
        · rw [ht]; rfl
        · rw [ht]
          constructor
          · intro _
            exact ⟨rfl, hex, hyes.1, hyes.2⟩
          · intro _
            simp [events_to_vfork, event.is_on_success]
        · rw [ht]
          constructor
          · intro hcount
            simp [events_to_vfork, event.is_on_error] at hcount
          · intro hnot
            exact absurd ⟨rfl, hex, hyes.1, hyes.2⟩ hnot
        · exact ⟨fun _ => ⟨rfl, hex⟩, fun _ => ⟨ch, hch⟩⟩
        · rw [ht, hch]
          simp [events_to_vfork, event.is_on_success, hf]
  · obtain ⟨ht, hch, ho, _⟩ := launch_setup_failed ini sys exec m ec0 h
    refine ⟨⟨_, ho⟩, ?_, ?_, ?_, ?_, ?_⟩
    · rw [ht]; rfl
    · rw [ht]
      simp [event.is_on_success]
    · rw [ht]
      simp [event.is_on_error]
    · rw [hch]
      simp
    · rw [ht, hch]
      simp [event.is_on_success]

/-- Every event of the child branch is one of four, and the sweep reads the
whitelist `on_exec_setup` left. -/
theorem child_branch_events (ini : initializers) (sys : system) (m : memory)
    (ec : error_code) (ev : event)
    (hev : ev ∈ (child_branch ini sys ⟨m, ec, []⟩).st.trace) :
    ev = event.on_exec_setup ∨ ev = event.close_all_fds (ini.on_exec_setup m).2.fd_whitelist ∨
      ev = event.execve ∨ ev = event.exit EXIT_FAILURE := by
  have hc : (close_all_fds sys (call_on_exec_setup ini ⟨m, ec, []⟩)).trace
      = [event.on_exec_setup, event.close_all_fds (ini.on_exec_setup m).2.fd_whitelist] := by
    simp [close_all_fds, call_on_exec_setup]
  rcases child_branch_cases ini sys ⟨m, ec, []⟩ with ⟨_, hb⟩ | ⟨_, _, hb⟩ | ⟨_, _, _, hb⟩ |
    ⟨e, _, _, _, _, _, ht⟩
  · rw [hb] at hev
    simp [emit, call_on_exec_setup] at hev
    tauto
  · rw [hb] at hev
    simp [emit, hc] at hev
    tauto
  · rw [hb] at hev
    simp [emit, hc] at hev
    tauto
  · rw [ht, hc] at hev
    simp at hev
    tauto

/-- C8, as the code has it.  On every attempt that reaches `vfork` the parent
sorts the whitelist once, right before the call, and neither the parent after
the call nor the child sorts again.  The whitelist `vfork` finds is sorted and
a permutation of the whitelist `on_setup` left.  The child starts on that
sorted list and sweeps with the whitelist `on_exec_setup` leaves, which is the
sorted list when `on_exec_setup` does not write to `fd_whitelist`. -/
theorem whitelist_sorted_once_before_vfork (ini : initializers) (sys : system) (exec : Nat)
    (m : memory) (ec0 : error_code) (h : (ini.on_setup m).1.failed = false) :
    ∃ post, (launch ini sys exec ⟨m, ec0, []⟩).parent.st.trace =
        [event.on_setup, event.notify_fork fork_event.fork_prepare,
         event.prepare_close_all_fds, event.vfork (sorted_whitelist ini m)] ++ post ∧
      event.prepare_close_all_fds ∉ post ∧
      (∀ ch, (launch ini sys exec ⟨m, ec0, []⟩).child = some ch →
        event.prepare_close_all_fds ∉ ch.st.trace) ∧
      List.Sorted (fun a b => a ≤ b) (sorted_whitelist ini m) ∧
      List.Perm (sorted_whitelist ini m) (ini.on_setup m).2.fd_whitelist ∧
      (∀ ch v, (launch ini sys exec ⟨m, ec0, []⟩).child = some ch →
        event.close_all_fds v ∈ ch.st.trace →
        v = (ini.on_exec_setup ⟨0, sorted_whitelist ini m,
              sys.notify_fork fork_event.fork_prepare (ini.on_setup m).2.errno⟩).2.fd_whitelist) ∧
      ((∀ x, (ini.on_exec_setup x).2.fd_whitelist = x.fd_whitelist) →
        ∀ ch v, (launch ini sys exec ⟨m, ec0, []⟩).child = some ch →
          event.close_all_fds v ∈ ch.st.trace → v = sorted_whitelist ini m) := by
  have hs : List.Sorted (fun a b => a ≤ b) (sorted_whitelist ini m) :=
    List.sorted_insertionSort (fun a b : Int => a ≤ b) _
  have hp : List.Perm (sorted_whitelist ini m) (ini.on_setup m).2.fd_whitelist :=
    List.perm_insertionSort (fun a b : Int => a ≤ b) _
  cases hv : sys.vfork with
  | failed e =>
    obtain ⟨hch, _, ht, _⟩ := launch_vfork_failed ini sys exec m ec0 e h hv
    refine ⟨_, ht, ?_, ?_, hs, hp, ?_, ?_⟩
    · simp
    · intro ch hsome
      rw [hch] at hsome
      exact absurd hsome (by simp)
    · intro ch v hsome
      rw [hch] at hsome
      exact absurd hsome (by simp)
    · intro _ ch v hsome
      rw [hch] at hsome
      exact absurd hsome (by simp)
  | forked c hc =>
    obtain ⟨ch1, hch, hdef, _, hcase⟩ := launch_forked ini sys exec m ec0 c hc h hv
    have hpost : ∃ post, (launch ini sys exec ⟨m, ec0, []⟩).parent.st.trace =
        events_to_vfork ini m ++ post ∧ event.prepare_close_all_fds ∉ post := by
      rcases hcase with ⟨_, _, ht⟩ | ⟨_, _, ht⟩
      · exact ⟨_, ht, by simp⟩
      · exact ⟨_, ht, by simp⟩
    obtain ⟨post, ht, hnot⟩ := hpost
    have hsweep : ∀ ch v, (launch ini sys exec ⟨m, ec0, []⟩).child = some ch →
        event.close_all_fds v ∈ ch.st.trace →
        v = (ini.on_exec_setup ⟨0, sorted_whitelist ini m,
              sys.notify_fork fork_event.fork_prepare (ini.on_setup m).2.errno⟩).2.fd_whitelist := by
      intro ch v hsome hmem
      have he : ch1 = ch := Option.some.inj (hch.symm.trans hsome)
      subst he
      rw [hdef] at hmem
      rcases child_branch_events ini sys _ _ _ hmem with h1 | h1 | h1 | h1
      · exact absurd h1 (by simp)
      · exact event.close_all_fds.inj h1
      · exact absurd h1 (by simp)
      · exact absurd h1 (by simp)
    refine ⟨post, ht, hnot, ?_, hs, hp, hsweep, ?_⟩
    · intro ch hsome hmem
      have he : ch1 = ch := Option.some.inj (hch.symm.trans hsome)
      subst he
      rw [hdef] at hmem
      rcases child_branch_events ini sys _ _ _ hmem with h1 | h1 | h1 | h1 <;>
        exact absurd h1 (by simp)
    · intro hframe ch v hsome hmem
      rw [hsweep ch v hsome hmem, hframe]

/-- When the three calls that follow a failed `vfork` leave `errno` as they find
it, the caller is given the `errno` of the failed `vfork`. -/
theorem launch_vfork_failed_errno_kept (ini : initializers) (sys : system) (exec : Nat)
    (m : memory) (ec0 : error_code) (e : Int)
    (h : (ini.on_setup m).1.failed = false) (hv : sys.vfork = vfork_result.failed e)
    (hn : ∀ ev x, sys.notify_fork ev x = x)
    (hf : ∀ ec x, (ini.on_fork_error ec x).errno = x.errno)
    (he : ∀ ec x, (ini.on_error ec x).errno = x.errno) :
    (launch ini sys exec ⟨m, ec0, []⟩).parent.st.ec = ⟨e, error_category.system_category⟩ := by
  simp [launch, call_on_setup, h, hv, after_vfork, ctx_notify_fork, prepare_close_all_fds,
    call_on_fork_error, call_on_error, hn, hf, he]

/-- A child that reaches `execve` leaves the error code unset, whatever `execve`
does. -/
theorem execve_leaves_code_unset (ini : initializers) (sys : system) (m : memory)
    (ec : error_code)
    (hx : event.execve ∈ (child_branch ini sys ⟨m, ec, []⟩).st.trace) :
    (child_branch ini sys ⟨m, ec, []⟩).st.ec.failed = false := by
  have hc : (close_all_fds sys (call_on_exec_setup ini ⟨m, ec, []⟩)).trace
      = [event.on_exec_setup, event.close_all_fds (ini.on_exec_setup m).2.fd_whitelist] := by
    simp [close_all_fds, call_on_exec_setup]
  rcases child_branch_cases ini sys ⟨m, ec, []⟩ with ⟨_, hb⟩ | ⟨_, _, hb⟩ | ⟨_, h2, _, hb⟩ |
    ⟨e, _, h2, _, _, hec, _⟩
  · rw [hb] at hx
    simp [emit, call_on_exec_setup] at hx
  · rw [hb] at hx
    simp [emit, hc] at hx
  · rw [hb]
    exact h2
  · rw [hec]
    exact h2

/-- C3, refuted as stated.  `on_exec_setup` fails with `EACCES` in the child
4242: the error code is set when the parent resumes, `on_error` runs, and the
handle the launcher returns holds no process id, so it does not wrap 4242. -/
theorem child_error_handle_counterexample :
    (∃ ch, (launch ini_exec_setup_fails sys_exec_ok 7
        proc0).child = some ch ∧ ch.st.ec.failed = true) ∧
    event.on_error ⟨EACCES, error_category.system_category⟩ ∈
      (launch ini_exec_setup_fails sys_exec_ok 7
        proc0).parent.st.trace ∧
    (launch ini_exec_setup_fails sys_exec_ok 7
        proc0).parent.out = outcome.returned ⟨7, none⟩ ∧
    (launch ini_exec_setup_fails sys_exec_ok 7
        proc0).parent.out ≠ outcome.returned ⟨7, some 4242⟩ := by
  refine ⟨⟨_, rfl, by decide⟩, by decide, by decide, by decide⟩

/-- C8, refuted as stated.  `on_exec_setup` reverses the whitelist in place
after the parent sorted it: the sweep in the child reads `[5, 4, 3]`, which is
not sorted. -/
theorem whitelist_at_sweep_counterexample :
    (ini_exec_setup_reverses.on_setup mem0).1.failed = false ∧
    ∃ ch, (launch ini_exec_setup_reverses sys_exec_ok 7
        proc0).child = some ch ∧
      event.close_all_fds [5, 4, 3] ∈ ch.st.trace ∧
      ¬ List.Sorted (fun a b : Int => a ≤ b) [5, 4, 3] := by
  refine ⟨by decide, _, rfl, by decide, by decide⟩

/-- C2, on an input where the code departs from it.  `vfork` fails with `EAGAIN`
and `on_error` leaves `EBADF` in `errno`: the six events are as claimed and the
handle holds no process id, but the caller is given `EBADF`, not the `errno`
of the failed `vfork`. -/
theorem vfork_failure_reports_later_errno :
    (launch ini_error_closes sys_vfork_fails 7
        proc0).parent.st.trace =
      [event.on_setup, event.notify_fork fork_event.fork_prepare,
       event.prepare_close_all_fds, event.vfork [3, 4, 5],
       event.notify_fork fork_event.fork_parent, event.on_fork_error error_code.ok,
       event.on_error error_code.ok] ∧
    (launch ini_error_closes sys_vfork_fails 7
        proc0).parent.out = outcome.returned ⟨7, none⟩ ∧
    (launch ini_error_closes sys_vfork_fails 7
        proc0).parent.st.ec = ⟨EBADF, error_category.system_category⟩ ∧
    (launch ini_error_closes sys_vfork_fails 7
        proc0).parent.st.ec ≠ ⟨EAGAIN, error_category.system_category⟩ := by
  refine ⟨by decide, by decide, by decide, by decide⟩

/-- C10, on an input where the code departs from it.  `vfork` fails with
`EAGAIN` and no hook does anything: `on_fork_error` and `on_error` are called
with the unset code `on_setup` returned, and only afterwards the launcher
stores `EAGAIN`, which is what the caller gets. -/
theorem error_hooks_see_unset_code :
    (launch ini_plain sys_vfork_fails 7
        proc0).parent.st.trace =
      [event.on_setup, event.notify_fork fork_event.fork_prepare,
       event.prepare_close_all_fds, event.vfork [3, 4, 5],
       event.notify_fork fork_event.fork_parent,
       event.on_fork_error ⟨0, error_category.system_category⟩,
       event.on_error ⟨0, error_category.system_category⟩] ∧
    (launch ini_plain sys_vfork_fails 7
        proc0).parent.st.ec = ⟨EAGAIN, error_category.system_category⟩ ∧
    (⟨0, error_category.system_category⟩ : error_code) ≠
      ⟨EAGAIN, error_category.system_category⟩ := by
  refine ⟨by decide, by decide, by decide⟩

/-- C4, on an input where the code departs from it.  Every hook and the sweep
succeed and `execve` returns with `ENOENT` in the child 4242: the child ends in
`exit(EXIT_FAILURE)`, yet the parent finds the error code unset, runs
`on_success` and no `on_error`, and hands out a handle for 4242. -/
theorem exec_failure_reported_as_success :
    (∃ ch, (launch ini_plain sys_exec_fails 7
        proc0).child = some ch ∧
      ch.out = outcome.exited EXIT_FAILURE ∧
      ch.st.trace = [event.on_exec_setup, event.close_all_fds [3, 4, 5], event.execve,
        event.exit EXIT_FAILURE]) ∧
    (launch ini_plain sys_exec_fails 7
        proc0).parent.st.ec.failed = false ∧
    (launch ini_plain sys_exec_fails 7
        proc0).parent.st.trace =
      [event.on_setup, event.notify_fork fork_event.fork_prepare,
       event.prepare_close_all_fds, event.vfork [3, 4, 5],
       event.notify_fork fork_event.fork_parent, event.on_success] ∧
    (launch ini_plain sys_exec_fails 7
        proc0).parent.out = outcome.returned ⟨7, some 4242⟩ := by
  refine ⟨⟨_, rfl, by decide, by decide⟩, by decide, by decide, by decide⟩

/-- C5, on an input where the code departs from it.  `on_setup` rejects the
request with `EINVAL`.  The executor overload with `error_code &` returns a
handle and leaves `EINVAL` with the caller; the overload with an execution
context and `error_code &` throws `EINVAL` and leaves the caller's error code
as it was, unset. -/
theorem context_overload_throws :
    (launch ini_setup_fails sys_exec_ok
        (execution_context.get_executor ⟨7⟩) proc0).parent.out
      = outcome.returned ⟨7, none⟩ ∧
    (launch ini_setup_fails sys_exec_ok
        (execution_context.get_executor ⟨7⟩) proc0).parent.st.ec
      = ⟨EINVAL, error_category.system_category⟩ ∧
    (launch_context_ec ini_setup_fails sys_exec_ok ⟨7⟩
        proc0).out = outcome.threw ⟨EINVAL, error_category.system_category⟩ ∧
    (launch_context_ec ini_setup_fails sys_exec_ok ⟨7⟩
        proc0).st.ec = error_code.ok := by
  refine ⟨by decide, by decide, by decide, by decide⟩

/-- C7, at hooks that do nothing and a child with the id 4242. -/
theorem success_path_witness :
    (ini_plain.on_setup mem0).1.failed = false ∧
    (launch ini_plain sys_exec_ok 7 ⟨mem0, error_code.ok, []⟩).parent.st.trace =
      [event.on_setup, event.notify_fork fork_event.fork_prepare,
       event.prepare_close_all_fds, event.vfork (sorted_whitelist ini_plain mem0),
       event.notify_fork fork_event.fork_parent, event.on_success] ∧
    (launch ini_plain sys_exec_ok 7 ⟨mem0, error_code.ok, []⟩).parent.st.trace.countP
      event.is_on_success = 1 ∧
    (launch ini_plain sys_exec_ok 7 ⟨mem0, error_code.ok, []⟩).parent.st.trace.countP
      event.is_on_error = 0 ∧
    (launch ini_plain sys_exec_ok 7 ⟨mem0, error_code.ok, []⟩).parent.st.trace.countP
      event.is_on_fork_error = 0 ∧
    (launch ini_plain sys_exec_ok 7 ⟨mem0, error_code.ok, []⟩).parent.st.ec.failed = false ∧
    (launch ini_plain sys_exec_ok 7 ⟨mem0, error_code.ok, []⟩).parent.out
      = outcome.returned ⟨7, some ((4242 : Nat) : Int)⟩ :=
  ⟨by decide,
   success_path ini_plain sys_exec_ok 7 mem0 error_code.ok
    4242 (by decide)
    (child_branch ini_plain sys_exec_ok
      ⟨⟨0, [3, 4, 5], 0⟩, error_code.ok, []⟩)
    (by decide) rfl rfl (by decide)⟩

/-- C3 as the code has it, at an `on_exec_setup` that fails with `EACCES` in the
child 4242. -/
theorem child_error_gives_handle_without_pid_witness :
    (launch ini_exec_setup_fails sys_exec_ok 7 ⟨mem0, error_code.ok, []⟩).parent.st.trace =
      [event.on_setup, event.notify_fork fork_event.fork_prepare,
       event.prepare_close_all_fds, event.vfork (sorted_whitelist ini_exec_setup_fails mem0),
       event.notify_fork fork_event.fork_parent,
       event.on_error (child_branch ini_exec_setup_fails
         sys_exec_ok
         ⟨⟨0, [3, 4, 5], 0⟩, error_code.ok, []⟩).st.ec] ∧
    (launch ini_exec_setup_fails sys_exec_ok 7 ⟨mem0, error_code.ok, []⟩).parent.st.trace.countP
      event.is_on_success = 0 ∧
    (launch ini_exec_setup_fails sys_exec_ok 7 ⟨mem0, error_code.ok, []⟩).parent.st.ec =
      (child_branch ini_exec_setup_fails
         sys_exec_ok
         ⟨⟨0, [3, 4, 5], 0⟩, error_code.ok, []⟩).st.ec ∧
    (launch ini_exec_setup_fails sys_exec_ok 7 ⟨mem0, error_code.ok, []⟩).parent.out
      = outcome.returned ⟨7, none⟩ :=
  child_error_gives_handle_without_pid ini_exec_setup_fails
    sys_exec_ok 7 mem0 error_code.ok 4242 (by decide)
    (child_branch ini_exec_setup_fails sys_exec_ok
      ⟨⟨0, [3, 4, 5], 0⟩, error_code.ok, []⟩)
    (by decide) rfl rfl (by decide)

/-- C8 as the code has it, at hooks that do nothing and a child with the id 4242. -/
theorem whitelist_sorted_once_before_vfork_witness :
    (ini_plain.on_setup mem0).1.failed = false ∧
    ∃ post, (launch ini_plain sys_exec_ok 7 ⟨mem0, error_code.ok, []⟩).parent.st.trace =
        [event.on_setup, event.notify_fork fork_event.fork_prepare,
         event.prepare_close_all_fds, event.vfork (sorted_whitelist ini_plain mem0)] ++ post ∧
      event.prepare_close_all_fds ∉ post ∧
      (∀ ch, (launch ini_plain sys_exec_ok 7 ⟨mem0, error_code.ok, []⟩).child = some ch →
        event.prepare_close_all_fds ∉ ch.st.trace) ∧
      List.Sorted (fun a b => a ≤ b) (sorted_whitelist ini_plain mem0) ∧
      List.Perm (sorted_whitelist ini_plain mem0) (ini_plain.on_setup mem0).2.fd_whitelist ∧
      (∀ ch v, (launch ini_plain sys_exec_ok 7 ⟨mem0, error_code.ok, []⟩).child = some ch →
        event.close_all_fds v ∈ ch.st.trace →
        v = (ini_plain.on_exec_setup ⟨0, sorted_whitelist ini_plain mem0,
              sys_exec_ok.notify_fork fork_event.fork_prepare
                (ini_plain.on_setup mem0).2.errno⟩).2.fd_whitelist) ∧
      ((∀ x, (ini_plain.on_exec_setup x).2.fd_whitelist = x.fd_whitelist) →
        ∀ ch v, (launch ini_plain sys_exec_ok 7 ⟨mem0, error_code.ok, []⟩).child = some ch →
          event.close_all_fds v ∈ ch.st.trace → v = sorted_whitelist ini_plain mem0) :=
  ⟨by decide,
   whitelist_sorted_once_before_vfork ini_plain sys_exec_ok 7
    mem0 error_code.ok (by decide)⟩

/-- C9, at a child whose hooks and sweep succeed and whose `execve` returns with
`ENOENT`. -/
theorem child_never_returns_witness :
    proc_child.mem.pid = 0 ∧
    ∃ t, (after_vfork ini_plain sys_exec_fails 7 proc_child).st.trace
        = proc_child.trace ++ event.on_exec_setup :: t ∧
      (t.any event.is_close_all_fds = true ↔
        (ini_plain.on_exec_setup proc_child.mem).1.failed = false) ∧
      (event.execve ∈ t ↔ ((ini_plain.on_exec_setup proc_child.mem).1.failed = false ∧
          (close_all_fds sys_exec_fails
            (call_on_exec_setup ini_plain proc_child)).ec.failed = false)) ∧
      ((event.execve ∉ t ∨ ∃ e, sys_exec_fails.execve
            = execve_result.failed e) →
          ((after_vfork ini_plain sys_exec_fails 7 proc_child).out = outcome.exited EXIT_FAILURE ∧
            t.getLast? = some (event.exit EXIT_FAILURE))) ∧
      (∀ ev ∈ event.on_exec_setup :: t, ev.is_on_error = false ∧ ev.is_on_success = false ∧
          ev.is_on_fork_error = false ∧ ev.is_notify_fork = false) ∧
      (∀ p, (after_vfork ini_plain sys_exec_fails 7 proc_child).out ≠ outcome.returned p) ∧
      (∀ e, (after_vfork ini_plain sys_exec_fails 7 proc_child).out ≠ outcome.threw e) :=
  ⟨rfl,
   child_never_returns ini_plain sys_exec_fails 7
    proc_child rfl⟩

end posix
